import Mathlib

/-!
Shallow embedding of the Dreadlock mutex-deadlock diagnostic layer
(src/Dreadlock.h, src/Dreadlock.cpp).

The process-wide tracking database `std::map<size_t, LockInfo>` is embedded
as an association list with the map operations used by the code
(`find`, `emplace`, `erase`, `operator[]` after a successful find).
The real mutexes are embedded as the set (list) of currently locked mutex
keys; `try_lock` succeeds exactly when the key is not in that set.
Timing is embedded by the sequence of elapsed-millisecond values the wait
loop observes; the scheduling of other threads is embedded by the sequence
of shared states the loop observes each iteration (one observation per
critical section under `tracking_mutex`).

`assert(cond)` is embedded as a fatal abort exactly when `cond` is false.
Undefined behaviour (dereferencing a null `LockInfo*`, calling `back()` on
an empty vector) is embedded by `Option`: a `none` result marks the
execution as falling outside the defined domain.
-/

/-- Compile-time configuration constants of Dreadlock.h (lines 49-66),
gathered into a structure so theorems can quantify over them. -/
structure Config where
  assertOnDeadlock : Bool
  performanceTimeout : Nat
  deadlockTimeout : Nat
  shortModuleNames : Bool
deriving DecidableEq

/-- The default values from Dreadlock.h: AssertOnDeadlock = true,
PerformanceTimeout = 1000, DeadlockTimeout = 5000, ShortModuleNames = true. -/
def defaultConfig : Config :=
  { assertOnDeadlock := true
    performanceTimeout := 1000
    deadlockTimeout := 5000
    shortModuleNames := true }

/-- `Dreadlock::LockInfo` (Dreadlock.h lines 90-98): the registry value. -/
structure LockInfo where
  dreadlock_id : Nat
  lock_file : String
  lock_line : Int
deriving DecidableEq

/-- `Dreadlock::tracking_map_t = std::map<size_t, LockInfo>`, embedded as an
association list from mutex key to LockInfo. -/
abbrev TrackingMap := List (Nat × LockInfo)

/-- `tracking.find(key)` on the map: the binding for `key`, if any. -/
def TrackingMap.find? : TrackingMap → Nat → Option LockInfo
  | [], _ => none
  | (k, v) :: t, key => if key = k then some v else TrackingMap.find? t key

/-- `tracking.emplace(key, v)`: std::map::emplace inserts only when no
binding for `key` exists (the code only calls it in that situation). -/
def TrackingMap.emplace (t : TrackingMap) (key : Nat) (v : LockInfo) : TrackingMap :=
  match t.find? key with
  | some _ => t
  | none => (key, v) :: t

/-- `tracking.erase(key)`: removes the binding for `key`. -/
def TrackingMap.eraseKey : TrackingMap → Nat → TrackingMap
  | [], _ => []
  | (k, v) :: t, key =>
      if k = key then TrackingMap.eraseKey t key else (k, v) :: TrackingMap.eraseKey t key

/-- The shared mutable state: the tracking database plus the lock state of
the real mutexes (the keys of the mutexes currently locked). -/
structure DState where
  tracking : TrackingMap
  lockedMutexes : List Nat
deriving DecidableEq

/-- `mtx.try_lock()`: succeeds exactly when the real mutex is unlocked;
on success the mutex becomes locked. -/
def DState.tryLock (s : DState) (key : Nat) : Bool × DState :=
  if s.lockedMutexes.contains key then (false, s)
  else (true, { s with lockedMutexes := key :: s.lockedMutexes })

/-- `mtx.unlock()` on the real mutex. -/
def DState.mtxUnlock (s : DState) (key : Nat) : DState :=
  { s with lockedMutexes := s.lockedMutexes.eraseP (fun k => k == key) }

/-- A `Dreadlock` handle's per-instance data (Dreadlock.h lines 114-121):
its unique id, display name, mutex key, and recorded destruct location. -/
structure Dreadlock where
  this_dreadlock : Nat
  id : String
  mtx_key : Nat
  destruct_file : String
  destruct_line : Int
deriving DecidableEq

/-- Path-separator test for the regex `[\\/]+` of get_module_name. -/
def isSep (c : Char) : Bool := c == '/' || c == '\\'

/-- Split a character sequence at every single separator character,
keeping the (possibly empty) pieces between consecutive separators. -/
def splitSep : List Char → List (List Char)
  | [] => [[]]
  | c :: cs =>
      if isSep c then [] :: splitSep cs
      else
        match splitSep cs with
        | [] => [[c]]
        | t :: ts => (c :: t) :: ts

/-- The token sequence produced by `std::sregex_token_iterator` with
sub-match `-1` over the regex `[\\/]+` (Dreadlock.cpp lines 83-85): the
prefix before the first separator run is always a token (even when empty),
the pieces between separator runs are tokens, and the suffix after the
last run is a token only when non-empty.  When the input contains no
separator at all the whole input (even when empty) is the single token.
Equivalently: keep the head of the single-character split and drop the
empty strings from its tail. -/
def get_module_name_tokens (path : String) : List String :=
  match (splitSep path.toList).map (fun cs => String.mk cs) with
  | [] => []
  | p :: rest => p :: rest.filter (fun t => t ≠ "")

/-- `Dreadlock::get_module_name` (Dreadlock.cpp lines 81-87):
`items.back()` of the token vector; `none` embeds the undefined behaviour
of `back()` on an empty vector. -/
def get_module_name (path : String) : Option String :=
  (get_module_name_tokens path).getLast?

/-- The `module` local computed at the top of lock and unlock
(Dreadlock.cpp lines 102-104 and 263-265). -/
def resolveModule (cfg : Config) (file : String) : Option String :=
  if cfg.shortModuleNames then get_module_name file else some file

/-- `tracking.find(mtx_key) != tracking.end()` as a Bool. -/
def isLockedIn (t : TrackingMap) (key : Nat) : Bool :=
  (t.find? key).isSome

/-- The repeated test `is_locked && tracking[mtx_key].dreadlock_id ==
this_dreadlock` (Dreadlock.cpp lines 61, 233, 268). -/
def lockedByMe (h : Dreadlock) (t : TrackingMap) : Bool :=
  match t.find? h.mtx_key with
  | some info => info.dreadlock_id == h.this_dreadlock
  | none => false

/-- Outcome of `Dreadlock::unlock` (Dreadlock.cpp lines 259-338). -/
inductive UnlockResult where
  /-- The `locked_by_me` branch: real mutex unlocked, entry erased. -/
  | released (module : String) (line : Int)
  /-- `!is_locked`: report "attempt to unlock unowned mutex", then
  `assert(false)`. -/
  | notLocked
  /-- `is_locked && !locked_by_me`: report illegal unlock naming the true
  holder, then `assert(false)`. -/
  | notOwner (holder : LockInfo)
deriving DecidableEq

/-- Whether the unlock outcome ends in `assert(false)`. -/
def UnlockResult.isFatal : UnlockResult → Bool
  | .released _ _ => false
  | .notLocked => true
  | .notOwner _ => true

/-- `Dreadlock::unlock(file, line)` (Dreadlock.cpp lines 259-338): compute
the module name, then release (unlock the real mutex and erase the
tracking entry) when `locked_by_me`, otherwise report and fail fatally
leaving all state unchanged. -/
def Dreadlock.unlock (cfg : Config) (h : Dreadlock) (s : DState) (file : String) (line : Int) :
    Option (UnlockResult × DState) :=
  (resolveModule cfg file).map (fun module =>
    match s.tracking.find? h.mtx_key with
    | none => (.notLocked, s)
    | some info =>
        if info.dreadlock_id == h.this_dreadlock then
          (.released module line,
           { tracking := s.tracking.eraseKey h.mtx_key
             lockedMutexes := (s.mtxUnlock h.mtx_key).lockedMutexes })
        else (.notOwner info, s))

/-- `unlock()` with its defaulted arguments
(`file = std::string(), line = -1`, Dreadlock.h line 153). -/
def Dreadlock.unlockDefault (cfg : Config) (h : Dreadlock) (s : DState) :
    Option (UnlockResult × DState) :=
  h.unlock cfg s "" (-1)

/-- Outcome of the entry section of `Dreadlock::lock` (Dreadlock.cpp lines
100-170), executed under `tracking_mutex`. -/
inductive EntryOutcome where
  /-- `!is_locked && mtx.try_lock()`: entry emplaced, lock held. -/
  | fastPath
  /-- `is_locked` with `info->dreadlock_id == this_dreadlock`: illegal
  re-lock reported, then `assert(false)`. -/
  | illegalReentry (held : LockInfo)
  /-- Fall through to the wait loop; `info` is the holder record captured
  at entry when one was present, and stays null otherwise. -/
  | enterWait (info : Option LockInfo)
deriving DecidableEq

/-- Whether the entry outcome ends in `assert(false)`. -/
def EntryOutcome.isFatal : EntryOutcome → Bool
  | .fastPath => false
  | .illegalReentry _ => true
  | .enterWait _ => false

/-- The entry section of `Dreadlock::lock` (Dreadlock.cpp lines 100-170):
compute the module name; if no tracking entry exists try the non-blocking
acquire and emplace on success; if the entry records this same handle
report and fail fatally; otherwise capture the holder record (if any) and
proceed to the wait loop. -/
def Dreadlock.lockEntry (cfg : Config) (h : Dreadlock) (s : DState) (file : String) (line : Int) :
    Option (EntryOutcome × DState) :=
  (resolveModule cfg file).map (fun module =>
    match s.tracking.find? h.mtx_key with
    | none =>
        let r := s.tryLock h.mtx_key
        if r.1 then
          (.fastPath,
           { r.2 with tracking :=
               r.2.tracking.emplace h.mtx_key ⟨h.this_dreadlock, module, line⟩ })
        else (.enterWait none, r.2)
    | some info =>
        if info.dreadlock_id == h.this_dreadlock then (.illegalReentry info, s)
        else (.enterWait (some info), s))

/-- One observation of the shared state by a wait-loop iteration: the state
found when `tracking_lock.lock()` is re-taken (other threads may have
changed it), and the elapsed milliseconds computed after the re-check. -/
structure LoopObs where
  env : DState
  elapsed : Nat
deriving DecidableEq

/-- How the wait loop (Dreadlock.cpp lines 174-228) terminated. -/
inductive LoopExit where
  /-- The tracking entry was gone: `break` is taken whether or not the
  immediate `mtx.try_lock()` succeeded; `acquired` records its result. -/
  | recordGone (acquired : Bool)
  /-- `elapsed >= DeadlockTimeout` with the entry still present. -/
  | timedOut
deriving DecidableEq

/-- The guard of the performance warning (Dreadlock.cpp line 201):
`PerformanceTimeout && !reported_performance && elapsed >= PerformanceTimeout`. -/
def warnNow (cfg : Config) (reported : Bool) (elapsed : Nat) : Bool :=
  cfg.performanceTimeout != 0 && !reported && decide (cfg.performanceTimeout ≤ elapsed)

/-- The state mutation of the `!is_locked` branch of a loop iteration
(Dreadlock.cpp lines 182-192), identical in shape to the fast path:
`if (mtx.try_lock()) tracking.emplace(...)`. -/
def claimAttempt (h : Dreadlock) (module : String) (line : Int) (s : DState) : DState :=
  let r := s.tryLock h.mtx_key
  if r.1 then
    { r.2 with tracking := r.2.tracking.emplace h.mtx_key ⟨h.this_dreadlock, module, line⟩ }
  else r.2

/-- The wait loop of `Dreadlock::lock` (Dreadlock.cpp lines 174-228), run
against a finite schedule of observations.  Returns the exit (with the
state the exiting iteration left behind) when one is reached within the
schedule — `none` means the loop is still running — together with the
number of performance warnings emitted. -/
def waitLoop (cfg : Config) (h : Dreadlock) (module : String) (line : Int) :
    List LoopObs → Bool → Nat → Option (LoopExit × DState) × Nat
  | [], _, warns => (none, warns)
  | obs :: rest, reported, warns =>
      if isLockedIn obs.env.tracking h.mtx_key then
        if cfg.deadlockTimeout ≤ obs.elapsed then (some (.timedOut, obs.env), warns)
        else
          let w := warnNow cfg reported obs.elapsed
          waitLoop cfg h module line rest (reported || w) (warns + if w then 1 else 0)
      else (some (.recordGone (obs.env.tryLock h.mtx_key).1, claimAttempt h module line obs.env), warns)

/-- The deadlock report of Dreadlock.cpp lines 236-254: the mutex display
name, the waiting location, the holder's location, and whether
`assert(!AssertOnDeadlock)` aborts. -/
structure DeadlockReport where
  mutexName : String
  waitFile : String
  waitLine : Int
  holderFile : String
  holderLine : Int
  aborted : Bool
deriving DecidableEq

/-- Outcome of the post-loop section of `Dreadlock::lock`. -/
inductive PostLoopResult where
  /-- `locked_by_me`: the acquisition succeeded. -/
  | held
  /-- Deadlock declared and reported. -/
  | deadlock (r : DeadlockReport)
deriving DecidableEq

/-- The post-loop section of `Dreadlock::lock` (Dreadlock.cpp lines
230-255): re-check ownership; when this handle is not the registered
holder, emit the deadlock report through `info->lock_file` /
`info->lock_line` — dereferencing the pointer captured at entry, which is
embedded here as `none` when it was still null — and abort exactly when
`AssertOnDeadlock` holds. -/
def postLoop (cfg : Config) (h : Dreadlock) (module : String) (line : Int)
    (info : Option LockInfo) (s : DState) : Option PostLoopResult :=
  if lockedByMe h s.tracking then some .held
  else
    match info with
    | none => none
    | some i =>
        some (.deadlock
          { mutexName := h.id
            waitFile := module
            waitLine := line
            holderFile := i.lock_file
            holderLine := i.lock_line
            aborted := cfg.assertOnDeadlock })

/-- `Dreadlock::~Dreadlock` (Dreadlock.cpp lines 54-66): when the tracking
database still records this handle as holder, call `unlock` with the
recorded destruct file when non-empty (else the marker
`"Dreadlock::~Dreadlock()"`) and the recorded destruct line when non-zero
(else `__LINE__`, which is 65 there); otherwise do nothing. -/
def Dreadlock.destructor (cfg : Config) (h : Dreadlock) (s : DState) : Option DState :=
  if lockedByMe h s.tracking then
    (h.unlock cfg s
        (if h.destruct_file = "" then "Dreadlock::~Dreadlock()" else h.destruct_file)
        (if h.destruct_line = 0 then 65 else h.destruct_line)).map Prod.snd
  else some s

/-- The keys currently present in the tracking database of a state. -/
def keysOf (s : DState) : List Nat := s.tracking.map Prod.fst

/-- Labels for the atomic critical sections of the Dreadlock operations:
which handle acted, and how. -/
inductive Event where
  | entryEv (h : Dreadlock) (file : String) (line : Int) (out : EntryOutcome)
  | iterEv (h : Dreadlock) (module : String) (line : Int)
  | unlockEv (h : Dreadlock) (file : String) (line : Int) (r : UnlockResult)
  | dtorEv (h : Dreadlock)

/-- One atomic critical section (under `tracking_mutex`) of any handle:
the entry section of lock, the record-gone branch of a wait-loop
iteration, an unlock, or a destructor. -/
inductive Step (cfg : Config) : Event → DState → DState → Prop where
  | entry {h : Dreadlock} {s s' : DState} {file : String} {line : Int} {out : EntryOutcome} :
      h.lockEntry cfg s file line = some (out, s') → Step cfg (.entryEv h file line out) s s'
  | iter {h : Dreadlock} {s : DState} {module : String} {line : Int} :
      isLockedIn s.tracking h.mtx_key = false →
      Step cfg (.iterEv h module line) s (claimAttempt h module line s)
  | unlockS {h : Dreadlock} {s s' : DState} {file : String} {line : Int} {r : UnlockResult} :
      h.unlock cfg s file line = some (r, s') → Step cfg (.unlockEv h file line r) s s'
  | dtor {h : Dreadlock} {s s' : DState} :
      h.destructor cfg s = some s' → Step cfg (.dtorEv h) s s'

/-- States reachable from the initial empty state (no tracking entries, no
locked mutexes) through the Dreadlock critical sections. -/
inductive Reachable (cfg : Config) : DState → Prop where
  | init : Reachable cfg ⟨[], []⟩
  | step {s s' : DState} {ev : Event} :
      Reachable cfg s → Step cfg ev s s' → Reachable cfg s'

/-- The event is a verified-release event by handle `h`: an unlock that
took the `released` branch, or a destructor (whose release goes through
the same branch). -/
def releaseEventBy : Event → Dreadlock → Prop
  | .unlockEv h' _ _ (.released _ _), h => h' = h
  | .dtorEv h', h => h' = h
  | _, _ => False

/-! ### Helper lemmas -/

theorem splitSep_ne_nil (cs : List Char) : splitSep cs ≠ [] := by
  induction cs with
  | nil => simp [splitSep]
  | cons c cs ih =>
      simp only [splitSep]
      split
      · simp
      · match hs : splitSep cs with
        | [] => exact absurd hs ih
        | t :: ts => simp

theorem get_module_name_tokens_ne_nil (path : String) :
    get_module_name_tokens path ≠ [] := by
  unfold get_module_name_tokens
  match hs : (splitSep path.toList).map (fun cs => String.mk cs) with
  | [] =>
      have := splitSep_ne_nil path.toList
      simp at hs
      exact absurd hs this
  | p :: rest => simp

theorem get_module_name_isSome (path : String) :
    ∃ m, get_module_name path = some m := by
  unfold get_module_name
  match hm : (get_module_name_tokens path).getLast? with
  | some m => exact ⟨m, rfl⟩
  | none =>
      rw [List.getLast?_eq_none_iff] at hm
      exact absurd hm (get_module_name_tokens_ne_nil path)

theorem resolveModule_isSome (cfg : Config) (file : String) :
    ∃ m, resolveModule cfg file = some m := by
  unfold resolveModule
  split
  · exact get_module_name_isSome file
  · exact ⟨file, rfl⟩

theorem find?_eq_none_iff (t : TrackingMap) (k : Nat) :
    t.find? k = none ↔ k ∉ t.map Prod.fst := by
  induction t with
  | nil => simp [TrackingMap.find?]
  | cons kv t ih =>
      obtain ⟨k', v⟩ := kv
      simp only [TrackingMap.find?, List.map_cons, List.mem_cons]
      split
      · simp_all
      · simp_all

theorem find?_eraseKey_self (t : TrackingMap) (k : Nat) :
    (t.eraseKey k).find? k = none := by
  induction t with
  | nil => simp [TrackingMap.eraseKey, TrackingMap.find?]
  | cons kv t ih =>
      obtain ⟨k', v⟩ := kv
      simp only [TrackingMap.eraseKey]
      split
      · exact ih
      · simp only [TrackingMap.find?]
        split
        · omega
        · exact ih

theorem find?_eraseKey_ne (t : TrackingMap) {k k' : Nat} (hne : k ≠ k') :
    (t.eraseKey k').find? k = t.find? k := by
  induction t with
  | nil => simp [TrackingMap.eraseKey]
  | cons kv t ih =>
      obtain ⟨k₀, v⟩ := kv
      simp only [TrackingMap.eraseKey]
      split
      · simp only [TrackingMap.find?]
        split
        · omega
        · exact ih
      · simp only [TrackingMap.find?]
        split
        · rfl
        · exact ih

theorem keys_eraseKey_sublist (t : TrackingMap) (k : Nat) :
    ((t.eraseKey k).map Prod.fst).Sublist (t.map Prod.fst) := by
  induction t with
  | nil => simp [TrackingMap.eraseKey]
  | cons kv t ih =>
      obtain ⟨k', v⟩ := kv
      simp only [TrackingMap.eraseKey]
      split
      · exact ih.trans (List.sublist_cons_self _ _)
      · simpa using ih.cons₂ k'

theorem nodup_emplace {t : TrackingMap} (k : Nat) (v : LockInfo)
    (hn : (t.map Prod.fst).Nodup) : ((t.emplace k v).map Prod.fst).Nodup := by
  unfold TrackingMap.emplace
  split
  · exact hn
  · rename_i hfind
    simp only [List.map_cons, List.nodup_cons]
    exact ⟨(find?_eq_none_iff t k).mp hfind, hn⟩

theorem find?_emplace_self {t : TrackingMap} {k : Nat} (v : LockInfo)
    (hfind : t.find? k = none) : (t.emplace k v).find? k = some v := by
  unfold TrackingMap.emplace
  rw [hfind]
  simp [TrackingMap.find?]

theorem find?_emplace_of_find? {t : TrackingMap} {k k' : Nat} {i : LockInfo} (v : LockInfo)
    (hb : t.find? k = some i) : (t.emplace k' v).find? k = some i := by
  unfold TrackingMap.emplace
  split
  · exact hb
  · rename_i hfind
    simp only [TrackingMap.find?]
    split
    · rename_i heq
      subst heq
      rw [hb] at hfind
      exact absurd hfind (by simp)
    · exact hb

theorem lockEntry_fast {cfg : Config} {h : Dreadlock} {s : DState} {file m : String} {line : Int}
    (hm : resolveModule cfg file = some m)
    (hfind : s.tracking.find? h.mtx_key = none)
    (hmem : s.lockedMutexes.contains h.mtx_key = false) :
    Dreadlock.lockEntry cfg h s file line =
      some (.fastPath,
        ⟨s.tracking.emplace h.mtx_key ⟨h.this_dreadlock, m, line⟩,
         h.mtx_key :: s.lockedMutexes⟩) := by
  simp at hmem
  simp [Dreadlock.lockEntry, DState.tryLock, hm, hfind, hmem]

theorem lockEntry_waitNull {cfg : Config} {h : Dreadlock} {s : DState} {file m : String} {line : Int}
    (hm : resolveModule cfg file = some m)
    (hfind : s.tracking.find? h.mtx_key = none)
    (hmem : s.lockedMutexes.contains h.mtx_key = true) :
    Dreadlock.lockEntry cfg h s file line = some (.enterWait none, s) := by
  simp at hmem
  simp [Dreadlock.lockEntry, DState.tryLock, hm, hfind, hmem]

theorem lockEntry_reentry {cfg : Config} {h : Dreadlock} {s : DState} {file m : String}
    {line : Int} {i : LockInfo}
    (hm : resolveModule cfg file = some m)
    (hfind : s.tracking.find? h.mtx_key = some i)
    (hid : i.dreadlock_id = h.this_dreadlock) :
    Dreadlock.lockEntry cfg h s file line = some (.illegalReentry i, s) := by
  simp [Dreadlock.lockEntry, hm, hfind, hid]

theorem lockEntry_waitOther {cfg : Config} {h : Dreadlock} {s : DState} {file m : String}
    {line : Int} {i : LockInfo}
    (hm : resolveModule cfg file = some m)
    (hfind : s.tracking.find? h.mtx_key = some i)
    (hid : i.dreadlock_id ≠ h.this_dreadlock) :
    Dreadlock.lockEntry cfg h s file line = some (.enterWait (some i), s) := by
  simp [Dreadlock.lockEntry, hm, hfind, hid]

theorem unlock_released {cfg : Config} {h : Dreadlock} {s : DState} {file m : String}
    {line : Int} {i : LockInfo}
    (hm : resolveModule cfg file = some m)
    (hfind : s.tracking.find? h.mtx_key = some i)
    (hid : i.dreadlock_id = h.this_dreadlock) :
    Dreadlock.unlock cfg h s file line =
      some (.released m line,
        ⟨s.tracking.eraseKey h.mtx_key,
         s.lockedMutexes.eraseP (fun k => k == h.mtx_key)⟩) := by
  simp [Dreadlock.unlock, hm, hfind, hid, DState.mtxUnlock]

theorem unlock_notLocked {cfg : Config} {h : Dreadlock} {s : DState} {file m : String} {line : Int}
    (hm : resolveModule cfg file = some m)
    (hfind : s.tracking.find? h.mtx_key = none) :
    Dreadlock.unlock cfg h s file line = some (.notLocked, s) := by
  simp [Dreadlock.unlock, hm, hfind]

theorem unlock_notOwner {cfg : Config} {h : Dreadlock} {s : DState} {file m : String}
    {line : Int} {i : LockInfo}
    (hm : resolveModule cfg file = some m)
    (hfind : s.tracking.find? h.mtx_key = some i)
    (hid : i.dreadlock_id ≠ h.this_dreadlock) :
    Dreadlock.unlock cfg h s file line = some (.notOwner i, s) := by
  simp [Dreadlock.unlock, hm, hfind, hid]

theorem destructor_lockedByMe {cfg : Config} {h : Dreadlock} {s : DState}
    (hl : lockedByMe h s.tracking = true) :
    Dreadlock.destructor cfg h s =
      (Dreadlock.unlock cfg h s
          (if h.destruct_file = "" then "Dreadlock::~Dreadlock()" else h.destruct_file)
          (if h.destruct_line = 0 then 65 else h.destruct_line)).map Prod.snd := by
  simp [Dreadlock.destructor, hl]

theorem destructor_noOp {cfg : Config} {h : Dreadlock} {s : DState}
    (hl : lockedByMe h s.tracking = false) :
    Dreadlock.destructor cfg h s = some s := by
  simp [Dreadlock.destructor, hl]

theorem lockEntry_tracking {cfg : Config} {h : Dreadlock} {s s' : DState}
    {file : String} {line : Int} {out : EntryOutcome}
    (he : Dreadlock.lockEntry cfg h s file line = some (out, s')) :
    s'.tracking = s.tracking ∨
    (s.tracking.find? h.mtx_key = none ∧
     ∃ m, s'.tracking = s.tracking.emplace h.mtx_key ⟨h.this_dreadlock, m, line⟩) := by
  obtain ⟨m, hm⟩ := resolveModule_isSome cfg file
  cases hfind : s.tracking.find? h.mtx_key with
  | none =>
      by_cases hmem : s.lockedMutexes.contains h.mtx_key = true
      · rw [lockEntry_waitNull hm hfind hmem] at he
        simp only [Option.some_inj, Prod.mk.injEq] at he
        obtain ⟨rfl, rfl⟩ := he
        exact Or.inl rfl
      · rw [lockEntry_fast hm hfind (by simpa using hmem)] at he
        simp only [Option.some_inj, Prod.mk.injEq] at he
        obtain ⟨rfl, rfl⟩ := he
        exact Or.inr ⟨rfl, m, rfl⟩
  | some i =>
      by_cases hid : i.dreadlock_id = h.this_dreadlock
      · rw [lockEntry_reentry hm hfind hid] at he
        simp only [Option.some_inj, Prod.mk.injEq] at he
        obtain ⟨rfl, rfl⟩ := he
        exact Or.inl rfl
      · rw [lockEntry_waitOther hm hfind hid] at he
        simp only [Option.some_inj, Prod.mk.injEq] at he
        obtain ⟨rfl, rfl⟩ := he
        exact Or.inl rfl

theorem unlock_cases {cfg : Config} {h : Dreadlock} {s s' : DState}
    {file : String} {line : Int} {r : UnlockResult}
    (hu : Dreadlock.unlock cfg h s file line = some (r, s')) :
    (s' = s ∧ r.isFatal = true) ∨
    (∃ m i, s.tracking.find? h.mtx_key = some i ∧ i.dreadlock_id = h.this_dreadlock ∧
       r = .released m line ∧
       s'.tracking = s.tracking.eraseKey h.mtx_key) := by
  obtain ⟨m, hm⟩ := resolveModule_isSome cfg file
  cases hfind : s.tracking.find? h.mtx_key with
  | none =>
      rw [unlock_notLocked hm hfind] at hu
      simp only [Option.some_inj, Prod.mk.injEq] at hu
      obtain ⟨rfl, rfl⟩ := hu
      exact Or.inl ⟨rfl, rfl⟩
  | some i =>
      by_cases hid : i.dreadlock_id = h.this_dreadlock
      · rw [unlock_released hm hfind hid] at hu
        simp only [Option.some_inj, Prod.mk.injEq] at hu
        obtain ⟨rfl, rfl⟩ := hu
        exact Or.inr ⟨m, i, rfl, hid, rfl, rfl⟩
      · rw [unlock_notOwner hm hfind hid] at hu
        simp only [Option.some_inj, Prod.mk.injEq] at hu
        obtain ⟨rfl, rfl⟩ := hu
        exact Or.inl ⟨rfl, rfl⟩

theorem destructor_cases {cfg : Config} {h : Dreadlock} {s s' : DState}
    (hd : Dreadlock.destructor cfg h s = some s') :
    s' = s ∨
    ∃ r file line, Dreadlock.unlock cfg h s file line = some (r, s') := by
  by_cases hl : lockedByMe h s.tracking = true
  · rw [destructor_lockedByMe hl] at hd
    cases hu : Dreadlock.unlock cfg h s
        (if h.destruct_file = "" then "Dreadlock::~Dreadlock()" else h.destruct_file)
        (if h.destruct_line = 0 then 65 else h.destruct_line) with
    | none => rw [hu] at hd; exact absurd hd (by simp)
    | some rs =>
        rw [hu] at hd
        simp only [Option.map_some', Option.some_inj] at hd
        exact Or.inr ⟨rs.1, _, _, by rw [hu, ← hd]⟩
  · rw [destructor_noOp (by simpa using hl)] at hd
    simp only [Option.some_inj] at hd
    exact Or.inl hd.symm

theorem claimAttempt_tracking (h : Dreadlock) (m : String) (l : Int) (s : DState) :
    (claimAttempt h m l s).tracking = s.tracking ∨
    (claimAttempt h m l s).tracking = s.tracking.emplace h.mtx_key ⟨h.this_dreadlock, m, l⟩ := by
  unfold claimAttempt DState.tryLock
  by_cases hmem : h.mtx_key ∈ s.lockedMutexes
  · left
    simp [hmem]
  · right
    simp [hmem]

theorem step_preserves_nodup {cfg : Config} {ev : Event} {s s' : DState}
    (hst : Step cfg ev s s') (hn : (keysOf s).Nodup) : (keysOf s').Nodup := by
  cases hst with
  | entry he =>
      rcases lockEntry_tracking he with h1 | ⟨hfind, m, h2⟩
      · unfold keysOf
        rw [h1]
        exact hn
      · unfold keysOf
        rw [h2]
        exact nodup_emplace _ _ hn
  | iter hil =>
      rcases claimAttempt_tracking _ _ _ _ with h1 | h2
      · unfold keysOf
        rw [h1]
        exact hn
      · unfold keysOf
        rw [h2]
        exact nodup_emplace _ _ hn
  | unlockS hu =>
      rcases unlock_cases hu with ⟨rfl, _⟩ | ⟨m, i, _, _, _, h2⟩
      · exact hn
      · unfold keysOf
        rw [h2]
        exact hn.sublist (keys_eraseKey_sublist _ _)
  | dtor hd =>
      rcases destructor_cases hd with rfl | ⟨r, f, l, hu⟩
      · exact hn
      · rcases unlock_cases hu with ⟨rfl, _⟩ | ⟨m, i, _, _, _, h2⟩
        · exact hn
        · unfold keysOf
          rw [h2]
          exact hn.sublist (keys_eraseKey_sublist _ _)

theorem step_binding {cfg : Config} {ev : Event} {s s' : DState}
    (hst : Step cfg ev s s') {k : Nat} {i : LockInfo}
    (hb : s.tracking.find? k = some i) :
    s'.tracking.find? k = some i ∨
    (s'.tracking.find? k = none ∧
     ∃ h : Dreadlock, k = h.mtx_key ∧ i.dreadlock_id = h.this_dreadlock ∧
       releaseEventBy ev h) := by
  cases hst with
  | entry he =>
      rcases lockEntry_tracking he with h1 | ⟨hfind, m, h2⟩
      · rw [h1]
        exact Or.inl hb
      · rw [h2]
        exact Or.inl (find?_emplace_of_find? _ hb)
  | iter hil =>
      rcases claimAttempt_tracking _ _ _ _ with h1 | h2
      · rw [h1]
        exact Or.inl hb
      · rw [h2]
        exact Or.inl (find?_emplace_of_find? _ hb)
  | unlockS hu =>
      rcases unlock_cases hu with ⟨rfl, _⟩ | ⟨m, i', hfind, hid, hr, h2⟩
      · exact Or.inl hb
      · rename_i h file line r
        by_cases hk : k = h.mtx_key
        · subst hk
          rw [hb] at hfind
          obtain rfl : i = i' := by injection hfind
          right
          refine ⟨by rw [h2]; exact find?_eraseKey_self _ _, h, rfl, hid, ?_⟩
          rw [hr]
          exact rfl
        · rw [h2, find?_eraseKey_ne _ hk]
          exact Or.inl hb
  | dtor hd =>
      rcases destructor_cases hd with rfl | ⟨r, f, l, hu⟩
      · exact Or.inl hb
      · rcases unlock_cases hu with ⟨rfl, _⟩ | ⟨m, i', hfind, hid, hr, h2⟩
        · exact Or.inl hb
        · rename_i h
          by_cases hk : k = h.mtx_key
          · subst hk
            rw [hb] at hfind
            obtain rfl : i = i' := by injection hfind
            right
            exact ⟨by rw [h2]; exact find?_eraseKey_self _ _, h, rfl, hid, rfl⟩
          · rw [h2, find?_eraseKey_ne _ hk]
            exact Or.inl hb

theorem reachable_nodup {cfg : Config} {s : DState} (hr : Reachable cfg s) :
    (keysOf s).Nodup := by
  induction hr with
  | init => simp [keysOf]
  | step _ hst ih => exact step_preserves_nodup hst ih

theorem warnNow_reported (cfg : Config) (e : Nat) : warnNow cfg true e = false := by
  simp [warnNow]

theorem warnNow_disabled {cfg : Config} (hpt : cfg.performanceTimeout = 0)
    (r : Bool) (e : Nat) : warnNow cfg r e = false := by
  simp [warnNow, hpt]

theorem waitLoop_warns_le {cfg : Config} {h : Dreadlock} {module : String} {line : Int} :
    ∀ (sched : List LoopObs) (reported : Bool) (warns : Nat),
      (waitLoop cfg h module line sched reported warns).2 ≤
        warns + (if reported then 0 else 1) := by
  intro sched
  induction sched with
  | nil =>
      intro r w
      simp only [waitLoop]
      exact Nat.le_add_right w _
  | cons obs rest ih =>
      intro r w
      simp only [waitLoop]
      split
      · split
        · exact Nat.le_add_right w _
        · cases r with
          | true =>
              have hw := warnNow_reported cfg obs.elapsed
              simpa [hw] using ih true w
          | false =>
              cases hw : warnNow cfg false obs.elapsed with
              | true => simpa [hw] using ih true (w + 1)
              | false =>
                  have := ih false w
                  simpa [hw] using this
      · exact Nat.le_add_right w _

theorem waitLoop_warns_disabled {cfg : Config} {h : Dreadlock} {module : String} {line : Int}
    (hpt : cfg.performanceTimeout = 0) :
    ∀ (sched : List LoopObs) (reported : Bool) (warns : Nat),
      (waitLoop cfg h module line sched reported warns).2 = warns := by
  intro sched
  induction sched with
  | nil =>
      intro r w
      simp [waitLoop]
  | cons obs rest ih =>
      intro r w
      simp only [waitLoop]
      split
      · split
        · rfl
        · simpa [warnNow_disabled hpt] using ih (r || warnNow cfg r obs.elapsed) w
      · rfl

theorem waitLoop_exit_char {cfg : Config} {h : Dreadlock} {module : String} {line : Int} :
    ∀ (sched : List LoopObs) (reported : Bool) (warns : Nat) (ex : LoopExit) (s' : DState),
      (waitLoop cfg h module line sched reported warns).1 = some (ex, s') →
      (∃ obs ∈ sched, isLockedIn obs.env.tracking h.mtx_key = false ∧
         ex = .recordGone (obs.env.tryLock h.mtx_key).1 ∧
         s' = claimAttempt h module line obs.env) ∨
      (ex = .timedOut ∧ ∃ obs ∈ sched,
         isLockedIn obs.env.tracking h.mtx_key = true ∧
         cfg.deadlockTimeout ≤ obs.elapsed ∧ s' = obs.env) := by
  intro sched
  induction sched with
  | nil =>
      intro r w ex s' hex
      simp [waitLoop] at hex
  | cons obs rest ih =>
      intro r w ex s' hex
      simp only [waitLoop] at hex
      by_cases hl : isLockedIn obs.env.tracking h.mtx_key = true
      · rw [if_pos hl] at hex
        by_cases hd : cfg.deadlockTimeout ≤ obs.elapsed
        · rw [if_pos hd] at hex
          simp only [Option.some_inj, Prod.mk.injEq] at hex
          obtain ⟨rfl, rfl⟩ := hex
          exact Or.inr ⟨rfl, obs, List.mem_cons_self _ _, hl, hd, rfl⟩
        · rw [if_neg hd] at hex
          rcases ih _ _ _ _ hex with ⟨o, ho, h1, h2, h3⟩ | ⟨h1, o, ho, h2, h3⟩
          · exact Or.inl ⟨o, List.mem_cons_of_mem _ ho, h1, h2, h3⟩
          · exact Or.inr ⟨h1, o, List.mem_cons_of_mem _ ho, h2, h3⟩
      · rw [if_neg hl] at hex
        simp only [Option.some_inj, Prod.mk.injEq] at hex
        obtain ⟨rfl, rfl⟩ := hex
        exact Or.inl ⟨obs, List.mem_cons_self _ _, by simpa using hl, rfl, rfl⟩

theorem waitLoop_no_exit {cfg : Config} {h : Dreadlock} {module : String} {line : Int} :
    ∀ (sched : List LoopObs) (reported : Bool) (warns : Nat),
      (∀ obs ∈ sched, isLockedIn obs.env.tracking h.mtx_key = true ∧
         obs.elapsed < cfg.deadlockTimeout) →
      (waitLoop cfg h module line sched reported warns).1 = none := by
  intro sched
  induction sched with
  | nil =>
      intro r w _
      simp [waitLoop]
  | cons obs rest ih =>
      intro r w hall
      obtain ⟨hl, hd⟩ := hall obs (List.mem_cons_self _ _)
      simp only [waitLoop]
      rw [if_pos hl, if_neg (by omega)]
      exact ih _ _ (fun o ho => hall o (List.mem_cons_of_mem _ ho))

theorem lockedByMe_eq_false_of {h : Dreadlock} {t : TrackingMap} {i : LockInfo}
    (hfind : t.find? h.mtx_key = some i) (hnot : lockedByMe h t = false) :
    i.dreadlock_id ≠ h.this_dreadlock := by
  unfold lockedByMe at hnot
  rw [hfind] at hnot
  simpa using hnot

theorem lockedByMe_eq_true_iff (h : Dreadlock) (t : TrackingMap) :
    lockedByMe h t = true ↔
    ∃ i, t.find? h.mtx_key = some i ∧ i.dreadlock_id = h.this_dreadlock := by
  unfold lockedByMe
  cases hfind : t.find? h.mtx_key with
  | none => simp
  | some i => simp

/-! ### Claim theorems -/

/-- C1: for every reachable state of the tracking registry, at most one
LockInfo entry exists per mutex key (the key list has no duplicates), and
every critical section preserves the bindings except that a binding can
disappear only through a verified release: an unlock or destructor by the
very handle the binding records as holder.  Since a binding is never
overwritten, an entry is inserted only when none exists for its key. -/
theorem registry_at_most_one_record {cfg : Config} {s : DState} (hr : Reachable cfg s) :
    (keysOf s).Nodup ∧
    (∀ (ev : Event) (s' : DState), Step cfg ev s s' →
      ∀ (k : Nat) (i : LockInfo), s.tracking.find? k = some i →
        s'.tracking.find? k = some i ∨
        (s'.tracking.find? k = none ∧
         ∃ h : Dreadlock, k = h.mtx_key ∧ i.dreadlock_id = h.this_dreadlock ∧
           releaseEventBy ev h)) :=
  ⟨reachable_nodup hr, fun _ _ hst _ _ hb => step_binding hst hb⟩

/-- Witness for C1 at the initial (empty) registry state. -/
theorem registry_at_most_one_record_witness :
    (keysOf ⟨[], []⟩).Nodup ∧
    (∀ (ev : Event) (s' : DState), Step defaultConfig ev ⟨[], []⟩ s' →
      ∀ (k : Nat) (i : LockInfo), (⟨[], []⟩ : DState).tracking.find? k = some i →
        s'.tracking.find? k = some i ∨
        (s'.tracking.find? k = none ∧
         ∃ h : Dreadlock, k = h.mtx_key ∧ i.dreadlock_id = h.this_dreadlock ∧
           releaseEventBy ev h)) :=
  registry_at_most_one_record Reachable.init

/-- C2 counterexample: a wait-loop execution that exits neither by a
successful acquire nor by deadlock-timeout expiry.  The schedule observes
the tracking entry gone while the real mutex is still locked (key 7 in
`lockedMutexes`): the loop breaks at elapsed time 0 with `try_lock`
failed, no record emplaced, and the timeout (5000 ms) not elapsed. -/
theorem wait_loop_break_without_acquire :
    ((waitLoop defaultConfig ⟨1, "m", 7, "", 0⟩ "b.cpp" 3
        [⟨⟨[], [7]⟩, 0⟩] false 0).1 = some (.recordGone false, ⟨[], [7]⟩)) ∧
    (⟨[], [7]⟩ : DState).tracking.find? 7 = none ∧
    (0 : Nat) < defaultConfig.deadlockTimeout := by
  decide

/-- C2 amended: the wait loop is exited only in one of two ways — the
registry record is observed absent, in which case the loop breaks
regardless of whether the immediate non-blocking acquire succeeded (the
`acquired` flag records its outcome), or the deadlock timeout elapses
while the record is present; and as long as every observation shows the
record present before the timeout, the loop cannot be exited (no external
cancellation). -/
theorem wait_loop_exit_modes (cfg : Config) (h : Dreadlock) (module : String) (line : Int) :
    (∀ (sched : List LoopObs) (r : Bool) (w : Nat) (ex : LoopExit) (s' : DState),
       (waitLoop cfg h module line sched r w).1 = some (ex, s') →
       (∃ got, ex = .recordGone got) ∨
       (ex = .timedOut ∧ ∃ obs ∈ sched,
          isLockedIn obs.env.tracking h.mtx_key = true ∧
          cfg.deadlockTimeout ≤ obs.elapsed)) ∧
    (∀ (sched : List LoopObs) (r : Bool) (w : Nat),
       (∀ obs ∈ sched, isLockedIn obs.env.tracking h.mtx_key = true ∧
          obs.elapsed < cfg.deadlockTimeout) →
       (waitLoop cfg h module line sched r w).1 = none) := by
  constructor
  · intro sched r w ex s' hex
    rcases waitLoop_exit_char sched r w ex s' hex with ⟨o, _, _, hgone, _⟩ | ⟨ht, o, ho, h1, h2, _⟩
    · exact Or.inl ⟨(o.env.tryLock h.mtx_key).1, hgone⟩
    · exact Or.inr ⟨ht, o, ho, h1, h2⟩
  · exact waitLoop_no_exit

/-- Witness for C2's amended theorem on a concrete exiting schedule. -/
theorem wait_loop_exit_modes_witness :
    (∃ got, LoopExit.recordGone false = .recordGone got) ∨
    (LoopExit.recordGone false = .timedOut ∧ ∃ obs ∈ [(⟨⟨[], [7]⟩, 0⟩ : LoopObs)],
       isLockedIn obs.env.tracking 7 = true ∧
       defaultConfig.deadlockTimeout ≤ obs.elapsed) :=
  (wait_loop_exit_modes defaultConfig ⟨1, "m", 7, "", 0⟩ "b.cpp" 3).1
    [⟨⟨[], [7]⟩, 0⟩] false 0 (.recordGone false) ⟨[], [7]⟩ (by decide)

/-- C3: when the wait loop ends with this handle not the registered holder
and a holder record was captured at entry, the post-loop section emits the
deadlock report naming the mutex, the waiting location and the holder's
location, with the abort flag exactly `AssertOnDeadlock`; and no LockRecord
for this handle exists in the registry at that point. -/
theorem deadlock_report_unconditional {cfg : Config} {h : Dreadlock} {module : String}
    {line : Int} {i : LockInfo} {s : DState}
    (hnot : lockedByMe h s.tracking = false) :
    postLoop cfg h module line (some i) s =
      some (.deadlock
        { mutexName := h.id
          waitFile := module
          waitLine := line
          holderFile := i.lock_file
          holderLine := i.lock_line
          aborted := cfg.assertOnDeadlock }) ∧
    (∀ v, s.tracking.find? h.mtx_key = some v → v.dreadlock_id ≠ h.this_dreadlock) := by
  constructor
  · simp [postLoop, hnot]
  · intro v hv
    exact lockedByMe_eq_false_of hv hnot

/-- Witness for C3 with `AssertOnDeadlock` disabled: the report is still
emitted, with the abort flag false. -/
theorem deadlock_report_unconditional_witness :
    postLoop ⟨false, 1000, 5000, true⟩ ⟨2, "m", 7, "", 0⟩ "b.cpp" 3
        (some ⟨1, "o.cpp", 2⟩) ⟨[(7, ⟨1, "o.cpp", 2⟩)], [7]⟩ =
      some (.deadlock
        { mutexName := "m"
          waitFile := "b.cpp"
          waitLine := 3
          holderFile := "o.cpp"
          holderLine := 2
          aborted := false }) ∧
    (∀ v, (⟨[(7, ⟨1, "o.cpp", 2⟩)], [7]⟩ : DState).tracking.find? 7 = some v →
       v.dreadlock_id ≠ 2) :=
  deadlock_report_unconditional (by decide)

/-- C4: a lock call finding the registry already recording this same handle
as holder of the target mutex reports the illegal re-lock and fails
fatally; the returned state is the input state unchanged (no second
LockInfo entry, real mutex untouched) and the outcome is `illegalReentry`,
so neither the wait loop nor the real mutex is reached. -/
theorem illegal_reentry_fatal {cfg : Config} {h : Dreadlock} {s : DState}
    {file : String} {line : Int} {i : LockInfo}
    (hfind : s.tracking.find? h.mtx_key = some i)
    (hid : i.dreadlock_id = h.this_dreadlock) :
    Dreadlock.lockEntry cfg h s file line = some (.illegalReentry i, s) ∧
    EntryOutcome.isFatal (.illegalReentry i) = true := by
  obtain ⟨m, hm⟩ := resolveModule_isSome cfg file
  exact ⟨lockEntry_reentry hm hfind hid, rfl⟩

/-- Witness for C4: handle 1 already holds mutex 7 and locks it again. -/
theorem illegal_reentry_fatal_witness :
    Dreadlock.lockEntry defaultConfig ⟨1, "m", 7, "", 0⟩
        ⟨[(7, ⟨1, "b.cpp", 10⟩)], [7]⟩ "a/b.cpp" 12 =
      some (.illegalReentry ⟨1, "b.cpp", 10⟩, ⟨[(7, ⟨1, "b.cpp", 10⟩)], [7]⟩) ∧
    EntryOutcome.isFatal (.illegalReentry ⟨1, "b.cpp", 10⟩) = true :=
  illegal_reentry_fatal (by decide) (by decide)

/-- C5: an unlock call made while this handle is not the recorded holder
returns with the state completely unchanged (registry mapping intact, real
mutex not unlocked) and a fatal outcome: `notLocked` when no entry exists
for the mutex, `notOwner` carrying the true holder's record otherwise. -/
theorem unlock_misuse_fatal_unchanged {cfg : Config} {h : Dreadlock} {s : DState}
    {file : String} {line : Int}
    (hnot : lockedByMe h s.tracking = false) :
    ∃ r, Dreadlock.unlock cfg h s file line = some (r, s) ∧
      UnlockResult.isFatal r = true ∧
      (s.tracking.find? h.mtx_key = none → r = .notLocked) ∧
      (∀ i, s.tracking.find? h.mtx_key = some i → r = .notOwner i) := by
  obtain ⟨m, hm⟩ := resolveModule_isSome cfg file
  cases hfind : s.tracking.find? h.mtx_key with
  | none =>
      refine ⟨.notLocked, unlock_notLocked hm hfind, rfl, fun _ => rfl, ?_⟩
      intro i hi
      exact absurd hi (by simp)
  | some i =>
      have hid := lockedByMe_eq_false_of hfind hnot
      refine ⟨.notOwner i, unlock_notOwner hm hfind hid, rfl, ?_, ?_⟩
      · intro hc
        exact absurd hc (by simp)
      · intro i' hi'
        simp only [Option.some_inj] at hi'
        rw [hi']

/-- Witness for C5: handle 2 unlocks mutex 7 currently held by handle 1. -/
theorem unlock_misuse_fatal_unchanged_witness :
    ∃ r, Dreadlock.unlock defaultConfig ⟨2, "m", 7, "", 0⟩
        ⟨[(7, ⟨1, "b.cpp", 10⟩)], [7]⟩ "a/b.cpp" 20 =
        some (r, ⟨[(7, ⟨1, "b.cpp", 10⟩)], [7]⟩) ∧
      UnlockResult.isFatal r = true ∧
      ((⟨[(7, ⟨1, "b.cpp", 10⟩)], [7]⟩ : DState).tracking.find? 7 = none →
        r = .notLocked) ∧
      (∀ i, (⟨[(7, ⟨1, "b.cpp", 10⟩)], [7]⟩ : DState).tracking.find? 7 = some i →
        r = .notOwner i) :=
  unlock_misuse_fatal_unchanged (by decide)

/-- C6: a successful fast-path lock immediately followed by an unlock on
the same handle releases through the verified path and leaves no LockInfo
entry for the mutex key. -/
theorem lock_unlock_round_trip {cfg : Config} {h : Dreadlock} {s : DState}
    {f1 f2 : String} {l1 l2 : Int}
    (habs : s.tracking.find? h.mtx_key = none)
    (hmem : s.lockedMutexes.contains h.mtx_key = false) :
    ∃ m2 s1 s2, Dreadlock.lockEntry cfg h s f1 l1 = some (.fastPath, s1) ∧
      Dreadlock.unlock cfg h s1 f2 l2 = some (.released m2 l2, s2) ∧
      s2.tracking.find? h.mtx_key = none := by
  obtain ⟨m1, hm1⟩ := resolveModule_isSome cfg f1
  obtain ⟨m2, hm2⟩ := resolveModule_isSome cfg f2
  have hfind1 := find?_emplace_self ⟨h.this_dreadlock, m1, l1⟩ habs
  have hrel := @unlock_released cfg h
      ⟨s.tracking.emplace h.mtx_key ⟨h.this_dreadlock, m1, l1⟩, h.mtx_key :: s.lockedMutexes⟩
      f2 m2 l2 ⟨h.this_dreadlock, m1, l1⟩ hm2 hfind1 rfl
  exact ⟨m2, _, _, lockEntry_fast hm1 habs hmem, hrel, find?_eraseKey_self _ _⟩

/-- Witness for C6 on the empty state. -/
theorem lock_unlock_round_trip_witness :
    ∃ m2 s1 s2, Dreadlock.lockEntry defaultConfig ⟨1, "m", 7, "", 0⟩ ⟨[], []⟩
        "a/b.cpp" 10 = some (.fastPath, s1) ∧
      Dreadlock.unlock defaultConfig ⟨1, "m", 7, "", 0⟩ s1 "a/b.cpp" 12 =
        some (.released m2 12, s2) ∧
      s2.tracking.find? 7 = none :=
  lock_unlock_round_trip (by decide) (by decide)

/-- C7: within a single execution of the wait loop (which starts with
`reported_performance = false` and zero warnings emitted), at most one
performance warning is emitted however long the schedule runs, and none at
all when the `PerformanceTimeout` constant is 0. -/
theorem performance_warning_once (cfg : Config) (h : Dreadlock) (module : String)
    (line : Int) (sched : List LoopObs) :
    (waitLoop cfg h module line sched false 0).2 ≤ 1 ∧
    (cfg.performanceTimeout = 0 → (waitLoop cfg h module line sched false 0).2 = 0) := by
  constructor
  · simpa using waitLoop_warns_le sched false 0
  · intro hpt
    exact waitLoop_warns_disabled hpt sched false 0

/-- Witness for C7 with the performance timeout disabled and a schedule
whose waits are long enough to cross any threshold. -/
theorem performance_warning_once_witness :
    (waitLoop ⟨true, 0, 5000, true⟩ ⟨1, "m", 7, "", 0⟩ "b.cpp" 3
        [⟨⟨[(7, ⟨0, "o.cpp", 2⟩)], [7]⟩, 2000⟩] false 0).2 = 0 :=
  (performance_warning_once ⟨true, 0, 5000, true⟩ ⟨1, "m", 7, "", 0⟩ "b.cpp" 3
      [⟨⟨[(7, ⟨0, "o.cpp", 2⟩)], [7]⟩, 2000⟩]).2 rfl

/-- C8: when the registry still records this handle as holder, the
destructor performs exactly the `unlock` release protocol — using the
destruct-location recorded by `destruct()` when one was supplied
(non-empty file, non-zero line) and the default marker location
`"Dreadlock::~Dreadlock()"` / line 65 otherwise — and afterwards no
LockInfo entry for the handle's mutex remains; when the registry does not
record this handle as holder (including when another handle holds the
mutex), the destructor returns the state unchanged. -/
theorem destructor_release_or_noop (cfg : Config) (h : Dreadlock) (s : DState) :
    (lockedByMe h s.tracking = true →
       ∃ m s', Dreadlock.destructor cfg h s = some s' ∧
         Dreadlock.unlock cfg h s
             (if h.destruct_file = "" then "Dreadlock::~Dreadlock()" else h.destruct_file)
             (if h.destruct_line = 0 then 65 else h.destruct_line) =
           some (.released m (if h.destruct_line = 0 then 65 else h.destruct_line), s') ∧
         s'.tracking.find? h.mtx_key = none) ∧
    (lockedByMe h s.tracking = false → Dreadlock.destructor cfg h s = some s) := by
  constructor
  · intro hl
    obtain ⟨i, hfind, hid⟩ := (lockedByMe_eq_true_iff h s.tracking).mp hl
    obtain ⟨m, hm⟩ := resolveModule_isSome cfg
      (if h.destruct_file = "" then "Dreadlock::~Dreadlock()" else h.destruct_file)
    have hrel := @unlock_released cfg h s
        (if h.destruct_file = "" then "Dreadlock::~Dreadlock()" else h.destruct_file)
        m (if h.destruct_line = 0 then 65 else h.destruct_line) i hm hfind hid
    refine ⟨m, _, ?_, hrel, find?_eraseKey_self _ _⟩
    rw [destructor_lockedByMe hl, hrel]
    rfl
  · exact destructor_noOp

/-- Witness for C8: a handle with a recorded destruct location that still
holds its mutex at destruction time. -/
theorem destructor_release_or_noop_witness :
    ∃ m s', Dreadlock.destructor defaultConfig ⟨1, "m", 7, "x/y.cpp", 9⟩
        ⟨[(7, ⟨1, "b.cpp", 10⟩)], [7]⟩ = some s' ∧
      Dreadlock.unlock defaultConfig ⟨1, "m", 7, "x/y.cpp", 9⟩
          ⟨[(7, ⟨1, "b.cpp", 10⟩)], [7]⟩
          (if ("x/y.cpp" : String) = "" then "Dreadlock::~Dreadlock()" else "x/y.cpp")
          (if (9 : Int) = 0 then 65 else 9) =
        some (.released m (if (9 : Int) = 0 then 65 else 9), s') ∧
      s'.tracking.find? 7 = none :=
  (destructor_release_or_noop defaultConfig ⟨1, "m", 7, "x/y.cpp", 9⟩
      ⟨[(7, ⟨1, "b.cpp", 10⟩)], [7]⟩).1 (by decide)

/-- C9: an execution in which lock finds no registry record but the real
mutex's non-blocking acquire fails (the mutex is held outside the
instrumentation layer's knowledge) reaches the post-loop deadlock-report
branch with the holder-record pointer still null, and the report's
dereference of it is undefined (`none`); whereas whenever a holder record
was captured (the pointer is non-null), the branch always produces a
defined result. -/
theorem deadlock_branch_null_info :
    (Dreadlock.lockEntry defaultConfig ⟨0, "m", 7, "", 0⟩ ⟨[], [7]⟩ "src/a.cpp" 10 =
       some (.enterWait none, ⟨[], [7]⟩)) ∧
    ((waitLoop defaultConfig ⟨0, "m", 7, "", 0⟩ "a.cpp" 10 [⟨⟨[], [7]⟩, 0⟩] false 0).1 =
       some (.recordGone false, ⟨[], [7]⟩)) ∧
    (postLoop defaultConfig ⟨0, "m", 7, "", 0⟩ "a.cpp" 10 none ⟨[], [7]⟩ = none) ∧
    (∀ (cfg : Config) (h : Dreadlock) (m : String) (l : Int) (i : LockInfo) (s : DState),
       (postLoop cfg h m l (some i) s).isSome = true) := by
  refine ⟨by decide, by decide, by decide, ?_⟩
  intro cfg h m l i s
  unfold postLoop
  split
  · rfl
  · rfl

/-- C10 counterexample: the token vector of `get_module_name` for the
empty string is not empty — the `sregex_token_iterator` suffix rule yields
a single empty token — so `items.back()` is defined and returns `""`. -/
theorem get_module_name_empty_tokens :
    get_module_name_tokens "" = [""] ∧
    get_module_name_tokens "" ≠ [] ∧
    get_module_name "" = some "" := by
  decide

/-- C10 amended: get_module_name returns the last token of the
separator-run split, and its token vector is non-empty for every input —
in particular the empty string, which unlock receives from its defaulted
file argument, yields the single empty token, so the `back()` call is
defined, `get_module_name("")` is `""`, and a defaulted `unlock()` under
`ShortModuleNames` stays inside the function's domain. -/
theorem get_module_name_total (path : String) :
    (∃ m, get_module_name path = some m) ∧
    get_module_name "" = some "" ∧
    get_module_name "dir/sub\\mod.cpp" = some "mod.cpp" ∧
    (∀ (cfg : Config) (h : Dreadlock) (s : DState),
       (Dreadlock.unlockDefault cfg h s).isSome = true) := by
  refine ⟨get_module_name_isSome path, by decide, by decide, ?_⟩
  intro cfg h s
  obtain ⟨m, hm⟩ := resolveModule_isSome cfg ""
  unfold Dreadlock.unlockDefault Dreadlock.unlock
  rw [hm]
  simp
